import Mathlib

/-!
Verification development for the s3tui repository (three source files:
src/lib.rs, src/providers/s3.rs, src/providers/filesystem.rs).

Strings are modelled at the character level as `List Char`; Rust byte
indices coincide with character indices for the single-byte separator
character used throughout. A Rust panic (unwrap/expect on a failing
value, or a slice-index panic) is modelled by an outer `Option`: `none`
means the call aborts, `some r` means it returns `r`.
-/

namespace S3tui

/-- Character-level model of a Rust `String`/`&str`. -/
abbrev Str := List Char

/-- The path separator, `'/'` in the source. -/
def sep : Char := '/'

/-- Entry kind, from src/lib.rs lines 19-23. The enum has exactly the two
variants `File` and `Directory` — there is no `Unknown` variant. -/
inductive Kind
  | File
  | Directory
deriving DecidableEq

/-! ## Object-store provider (src/providers/s3.rs) -/

/-- One element of the `ListObjectsV2` response `contents`, restricted to the
fields `list_objects` reads. `key` and `last_modified` are optional in the
wire model and the code unwraps them. `owner` is an optional record whose
`display_name` field is itself optional, hence `Option (Option Str)`. -/
structure ObjIn where
  key : Option Str
  size : Option Int
  last_modified : Option Str
  storage_class : Option Str
  owner : Option (Option Str)
deriving DecidableEq

/-- `S3Object` from src/providers/s3.rs lines 13-21. The parsed
`last_mod` timestamp is abstracted to `Int` (the development is
parameterised by the RFC 3339 parser, see `processObj`). -/
structure S3Object where
  name : Str
  pfx : Str
  kind : Kind
  size : Option Int
  last_mod : Int
  storage_class : Option Str
  owner : Option Str
deriving DecidableEq

/-- Rust `str::find` for a one-character pattern: index of the first
occurrence, in characters. -/
def firstSep : Str → Option Nat
  | [] => none
  | c :: cs => if c = sep then some 0 else (firstSep cs).map (· + 1)

/-- Rust `str::split_at(n)`: panics (here `none`) when `n` exceeds the
string length, otherwise yields the first `n` characters and the rest. -/
def splitAtP (n : Nat) (s : Str) : Option (Str × Str) :=
  if n ≤ s.length then some (s.take n, s.drop n) else none

/-- The filter closure of `list_objects` (src/providers/s3.rs lines 65-80),
after the key has been split into `(head, rest)`. The three match arms of
the source are, in order: head empty (empty prefix); rest empty; both
non-empty, where the separator count and last character decide. -/
def keepKey (head rest : Str) : Bool :=
  match head, rest with
  | [], name =>
    match firstSep name with
    | none => true
    | some i => i == name.length - 1
  | _, [] => false
  | _, name =>
    name.count sep == 0 || (name.count sep == 1 && name.getLast? == some sep)

/-- The map closure of `list_objects` (src/providers/s3.rs lines 81-104)
applied to a retained key split as `(head, rest)`: the kind is decided by
the last character of `rest` (`unwrap` panics when `rest` is empty), the
last-modified string is unwrapped and parsed (`expect` panics on a missing
or unparsable value), and the owner display name is flattened. `parse`
stands for chrono's `DateTime::parse_from_rfc3339`. -/
def mkObject (parse : Str → Option Int) (head rest : Str) (o : ObjIn) :
    Option S3Object :=
  match rest.getLast? with
  | none => none
  | some lastc =>
    match o.last_modified with
    | none => none
    | some lm =>
      match parse lm with
      | none => none
      | some t =>
        some
          { name := rest
            pfx := head
            kind := if lastc = sep then Kind.Directory else Kind.File
            size := o.size
            last_mod := t
            storage_class := o.storage_class
            owner := match o.owner with
              | some own => own
              | none => none }

/-- Processing of one response object by the fused filter/map pipeline of
`list_objects`: unwrap the key, split it at the prefix length, apply the
filter; a retained key is mapped to its `S3Object`. The outer `Option` is
panic, the inner `Option` distinguishes a filtered-out key (`some none`)
from an emitted entry (`some (some obj)`). -/
def processObj (parse : Str → Option Int) (pfx : Str) (o : ObjIn) :
    Option (Option S3Object) :=
  match o.key with
  | none => none
  | some key =>
    match splitAtP pfx.length key with
    | none => none
    | some (head, rest) =>
      if keepKey head rest then
        match mkObject parse head rest o with
        | none => none
        | some obj => some (some obj)
      else some none

/-- Element-wise processing with panic propagation: `none` as soon as any
element's processing panics, otherwise the list of per-element results. -/
def mapPanic (f : α → Option β) : List α → Option (List β)
  | [] => some []
  | a :: as =>
    match f a with
    | none => none
    | some b => (mapPanic f as).map (b :: ·)

/-- `S3Provider::list_objects` (src/providers/s3.rs lines 50-107) after the
network response has been received: a missing `contents` yields `Ok` with
the empty vector; otherwise the prefix defaults to the empty string and
the contents pass through the filter/map pipeline. The outer `Option` is
panic; the transport-error path of the source is not modelled since every
claim concerns the post-response processing. -/
def list_objects (parse : Str → Option Int) (pfx? : Option Str)
    (contents : Option (List ObjIn)) : Option (List S3Object) :=
  match contents with
  | none => some []
  | some objs =>
    let pfx := match pfx? with
      | some p => p
      | none => []
    (mapPanic (processObj parse pfx) objs).map (List.filterMap id)

/-! ## Filesystem provider (src/providers/filesystem.rs) -/

/-- The error kinds of `std::io::ErrorKind` that the source constructs or
inspects. -/
inductive IOErrorKind
  | NotFound
  | PermissionDenied
  | Unsupported
  | Interrupted
  | InvalidInput
  | Other
deriving DecidableEq

/-- `FilesystemObject` from src/providers/filesystem.rs lines 16-20; the
`dir` field holds `path.parent()`. -/
structure FilesystemObject where
  name : Str
  dir : Option Str
  kind : Kind
deriving DecidableEq

/-- OS-level view of one `read_dir` entry as the listing code probes it.
`fileName` is `path.file_name()` converted to UTF-8 — the source unwraps
the option and expects the conversion, so `none` covers both panic causes.
`isDir` is the result of the per-child `fs::metadata(&path)` call: `none`
when that call fails (the source unwraps it). `parent` is
`path.parent()`. -/
structure DirEntryIn where
  fileName : Option Str
  isDir : Option Bool
  parent : Option Str
deriving DecidableEq

/-- OS oracle for one `get_files_list` call on a fixed path: whether
`path.exists()`, the result of `fs::metadata(path)` reduced to its
`is_dir` bit (`none` = the call errs), and the result of
`fs::read_dir(path)` (`none` = the call errs; each listed entry is itself
a `Result`, whose `Err` case the source unwraps, hence `Option
DirEntryIn`). -/
structure PathState where
  pathExists : Bool
  metadataIsDir : Option Bool
  readDir : Option (List (Option DirEntryIn))
deriving DecidableEq

/-- The per-child closure of `get_files_list` (src/providers/filesystem.rs
lines 72-89): unwrap the entry, unwrap/convert its file name, unwrap its
metadata; a directory child gets a trailing separator appended to its name
and kind `Directory`, otherwise kind `File`. `none` is a panic. -/
def mkFsObject (e? : Option DirEntryIn) : Option FilesystemObject :=
  match e? with
  | none => none
  | some e =>
    match e.fileName with
    | none => none
    | some base =>
      match e.isDir with
      | none => none
      | some d =>
        if d then
          some { name := base ++ [sep], dir := e.parent, kind := Kind.Directory }
        else
          some { name := base, dir := e.parent, kind := Kind.File }

/-- `get_files_list` (src/providers/filesystem.rs lines 64-103), faithfully
including its branch structure: a missing path errs with `NotFound`; when
`fs::metadata` succeeds the code takes the listing branch only when
`is_dir()` is FALSE (the guard at line 70 is `!dir_metadata.is_dir()`),
errs with `Unsupported` when `is_dir()` is true, errs with `Other` when
`read_dir` fails, and errs with `PermissionDenied` when `fs::metadata`
fails. The outer `Option` is panic (a child entry or child metadata
failure). -/
def get_files_list (st : PathState) :
    Option (Except IOErrorKind (List FilesystemObject)) :=
  if !st.pathExists then some (Except.error IOErrorKind.NotFound)
  else
    match st.metadataIsDir with
    | some d =>
      if !d then
        match st.readDir with
        | some entries =>
          match mapPanic mkFsObject entries with
          | some objs => some (Except.ok objs)
          | none => none
        | none => some (Except.error IOErrorKind.Other)
      else some (Except.error IOErrorKind.Unsupported)
    | none => some (Except.error IOErrorKind.PermissionDenied)

/-- OS oracle for one `remove_file` call on a fixed path: whether
`path.exists()`, the `is_dir` bit of `fs::metadata(path)` (`none` = the
call errs), and whether `fs::remove_file(path)` succeeds when invoked. -/
structure RemoveState where
  pathExists : Bool
  metadataIsDir : Option Bool
  removeOk : Bool
deriving DecidableEq

/-- `remove_file` (src/providers/filesystem.rs lines 135-155). The second
component records whether `fs::remove_file` actually deleted the file:
`true` only on the success path, so the Unsupported/NotFound/metadata
branches leave the filesystem untouched. -/
def remove_file (st : RemoveState) : Except IOErrorKind Unit × Bool :=
  if !st.pathExists then (Except.error IOErrorKind.NotFound, false)
  else
    match st.metadataIsDir with
    | some d =>
      if d then (Except.error IOErrorKind.Unsupported, false)
      else if st.removeOk then (Except.ok (), true)
      else (Except.error IOErrorKind.PermissionDenied, false)
    | none => (Except.error IOErrorKind.PermissionDenied, false)

/-- The write loop of `write_file_from_stream` (src/providers/filesystem.rs
lines 120-127). `stream` is the source's item sequence (each item a
`Result`; the source unwraps it, so an error item is a panic, modelled by
the outer `Option`). `wr n` is the outcome of the n-th `writer.write`
call: `none` = `Ok`, `some k` = `Err` of kind `k`. On `Interrupted` the
source executes `continue`, which moves to the NEXT stream item; on any
other error it returns the error unchanged. The returned list is the
sequence of chunks actually accepted by the writer, in order. -/
def writeLoop (wr : Nat → Option IOErrorKind) :
    Nat → List (Except IOErrorKind α) → Option (Except IOErrorKind Unit × List α)
  | _, [] => some (Except.ok (), [])
  | n, item :: rest =>
    match item with
    | Except.error _ => none
    | Except.ok chunk =>
      match wr n with
      | none =>
        (writeLoop wr (n + 1) rest).map fun r => (r.1, chunk :: r.2)
      | some IOErrorKind.Interrupted => writeLoop wr (n + 1) rest
      | some k => some (Except.error k, [])

/-- `write_file_from_stream` (src/providers/filesystem.rs lines 113-133):
a failing `File::create` errs with `NotFound`; otherwise the stream is
drained through `writeLoop` and `Ok(())` is returned after the stream is
exhausted. -/
def write_file_from_stream (createOk : Bool) (wr : Nat → Option IOErrorKind)
    (stream : List (Except IOErrorKind α)) :
    Option (Except IOErrorKind Unit × List α) :=
  if createOk then writeLoop wr 0 stream
  else some (Except.error IOErrorKind.NotFound, [])

/-- The open options built by `get_file_byte_stream`
(src/providers/filesystem.rs lines 106-109): only `create(false)` and
`truncate(false)` are set; `read`, `write` and `append` keep their
`false` defaults. -/
structure OpenOptions where
  read : Bool := false
  write : Bool := false
  append : Bool := false
  create : Bool := false
  truncate : Bool := false
deriving DecidableEq

/-- OS view of the file a single open targets. -/
structure FileState where
  pathExists : Bool
  readable : Bool
  len : Nat
deriving DecidableEq

/-- Modelled from the documented semantics of
`std::fs::OpenOptions::open`: when none of `read`, `write`, `append` is
set the call fails with `InvalidInput` before touching the filesystem
(std documents this under "Errors: InvalidInput — invalid combinations of
open options (... no access mode set ...)"); `truncate` without write
access likewise; otherwise a missing path errs with `NotFound` (the
source sets `create(false)`) and an unreadable one with
`PermissionDenied`. -/
def openFile (o : OpenOptions) (f : FileState) : Except IOErrorKind FileState :=
  if !o.read && !o.write && !o.append then Except.error IOErrorKind.InvalidInput
  else if o.truncate && !o.write then Except.error IOErrorKind.InvalidInput
  else if !f.pathExists then Except.error IOErrorKind.NotFound
  else if !f.readable then Except.error IOErrorKind.PermissionDenied
  else Except.ok f

/-- `FileBytesStream` (src/providers/filesystem.rs lines 22-25): its
`size` is the file length read at construction time. -/
structure FileBytesStream where
  size : Nat
deriving DecidableEq

/-- `Stream::size_hint` for `FileBytesStream`
(src/providers/filesystem.rs lines 59-61). -/
def size_hint (s : FileBytesStream) : Nat × Option Nat := (s.size, some s.size)

/-- `get_file_byte_stream` (src/providers/filesystem.rs lines 105-111):
opens the path with `create(false).truncate(false)` — and no access
mode — propagating any open error unchanged, then wraps the file in a
`FileBytesStream` sized to its length. -/
def get_file_byte_stream (f : FileState) : Except IOErrorKind FileBytesStream :=
  match openFile { create := false, truncate := false } f with
  | Except.error e => Except.error e
  | Except.ok file => Except.ok { size := file.len }

/-- Reference function following the words of the specification's delete
contract for the filesystem backend, to be compared with `remove_file`:
NotFound for an absent path, Unsupported for an existing directory
(nothing removed), PermissionDenied when metadata access or removal
fails, and otherwise exactly the single file is removed. -/
def remove_file_claim (st : RemoveState) : Except IOErrorKind Unit × Bool :=
  if !st.pathExists then (Except.error IOErrorKind.NotFound, false)
  else
    match st.metadataIsDir with
    | none => (Except.error IOErrorKind.PermissionDenied, false)
    | some true => (Except.error IOErrorKind.Unsupported, false)
    | some false =>
      if st.removeOk then (Except.ok (), true)
      else (Except.error IOErrorKind.PermissionDenied, false)

/-! ## Event multiplexer and application loop (src/lib.rs) -/

/-- Minimal model of crossterm's `KeyCode`: the exit key `Esc` against
which `spawn_sender` compares, and everything else. -/
inductive KeyCode
  | Esc
  | Chr (c : Char)
deriving DecidableEq

/-- `Event<I>` from src/lib.rs lines 25-29. -/
inductive Event (κ : Type)
  | Input (k : κ)
  | Shutdown
  | Tick
deriving DecidableEq

/-- The key classification inside `spawn_sender` (src/lib.rs lines 51-55):
`KeyCode::Esc` becomes `Shutdown`, every other key becomes `Input(key)`. -/
def classify_key (k : KeyCode) : Event KeyCode :=
  if k = KeyCode.Esc then Event.Shutdown else Event.Input k

/-- The mpsc channel as a FIFO queue: a send appends at the back. -/
def channel_send (q : List ε) (e : ε) : List ε := q ++ [e]

/-- Modelled from the documented semantics of
`std::sync::mpsc::Sender::send`: it returns `Ok` exactly while the
receiving side is alive, and `Err(SendError)` once the receiver has been
dropped; it never blocks or panics itself. -/
def mpsc_send (receiverAlive : Bool) : Bool := receiverAlive

/-- How `spawn_sender` (src/lib.rs lines 49-63) handles the send result
for each event kind: `Input` and `Shutdown` sends go through
`.expect("Can send events")`, which panics (`none`) when the send is
rejected; the `Tick` send result is consumed by `if let Ok(_)`, so a
rejected `Tick` is silently dropped (only `last_tick` is left
unchanged). -/
def sender_dispatch (receiverAlive : Bool) (e : Event κ) : Option Unit :=
  match e with
  | Event.Input _ => if mpsc_send receiverAlive then some () else none
  | Event.Shutdown => if mpsc_send receiverAlive then some () else none
  | Event.Tick => some ()

/-- Result of one `App::run` execution over a finite event sequence. -/
structure RunResult (κ : Type) where
  handled : List κ
  teardownRan : Bool
  unprocessed : List (Event κ)
deriving DecidableEq

/-- `App::run` (src/lib.rs lines 89-102) consuming the channel contents in
order: `Input` dispatches the key (handle + render) and continues, `Tick`
does nothing and continues, `Shutdown` runs `main_screen.shutdown()` and
breaks, leaving any later events unprocessed. An exhausted, closed
channel makes `recv().unwrap()` panic (`none`). -/
def run_loop : List (Event κ) → Option (RunResult κ)
  | [] => none
  | Event.Input k :: rest =>
    (run_loop rest).map fun r =>
      { handled := k :: r.handled
        teardownRan := r.teardownRan
        unprocessed := r.unprocessed }
  | Event.Shutdown :: rest =>
    some { handled := [], teardownRan := true, unprocessed := rest }
  | Event.Tick :: rest => run_loop rest

/-! ## Helper lemmas -/

theorem firstSep_cons (c : Char) (cs : Str) :
    firstSep (c :: cs) = if c = sep then some 0 else (firstSep cs).map (· + 1) := rfl

theorem keepKey_nil_head (rest : Str) :
    keepKey [] rest =
      (match firstSep rest with
       | none => true
       | some i => i == rest.length - 1) := by
  cases rest <;> rfl

theorem firstSep_eq_none_iff (l : Str) : firstSep l = none ↔ l.count sep = 0 := by
  induction l with
  | nil => simp [firstSep]
  | cons c cs ih =>
    by_cases hc : c = sep
    · subst hc
      simp [firstSep_cons, List.count_cons]
    · have hb : (c == sep) = false := by simp [hc]
      simp [firstSep_cons, hc, List.count_cons, hb, ih]

theorem count_zero_getLast_ne (l : Str) (h : l.count sep = 0) :
    l.getLast? ≠ some sep := by
  intro hl
  rw [List.count_eq_zero] at h
  exact h (List.mem_of_mem_getLast? hl)

theorem getLast_cons_ne_nil (c : Char) (cs : Str) (h : cs ≠ []) :
    (c :: cs).getLast? = cs.getLast? := by
  rcases cs with _ | ⟨x, xs⟩
  · simp at h
  · exact List.getLast?_cons_cons ..

theorem firstSep_last_iff (l : Str) (h : l ≠ []) :
    firstSep l = some (l.length - 1) ↔
      l.count sep = 1 ∧ l.getLast? = some sep := by
  induction l with
  | nil => simp at h
  | cons c cs ih =>
    rcases hcs : cs with _ | ⟨c2, cs2⟩
    · by_cases hc : c = sep
      · subst hc
        simp [firstSep_cons, List.count_cons]
      · have hb : (c == sep) = false := by simp [hc]
        simp [firstSep_cons, hc, List.count_cons, hb]
    · rw [← hcs]
      have hne : cs ≠ [] := by rw [hcs]; simp
      have hlen1 : (c :: cs).length - 1 = cs.length := by simp
      have hlast : (c :: cs).getLast? = cs.getLast? := getLast_cons_ne_nil _ _ hne
      by_cases hc : c = sep
      · subst hc
        rw [firstSep_cons, if_pos rfl, hlen1, hlast, List.count_cons]
        simp only [beq_self_eq_true, if_true]
        constructor
        · intro hfs
          exfalso
          have h0 : 0 = cs.length := by simpa using hfs
          exact hne (List.length_eq_zero.mp h0.symm)
        · rintro ⟨hcnt, hl⟩
          exfalso
          have hz : cs.count sep = 0 := by omega
          exact count_zero_getLast_ne _ hz hl
      · have hb : (c == sep) = false := by simp [hc]
        rw [firstSep_cons, if_neg hc, hlen1, hlast, List.count_cons, hb]
        simp only [Bool.false_eq_true, if_false, Nat.add_zero]
        rw [Option.map_eq_some']
        constructor
        · rintro ⟨i, hi, hadd⟩
          have hpos : 1 ≤ cs.length := by
            rcases cs with _ | _
            · exact absurd rfl hne
            · simp
          have : i = cs.length - 1 := by omega
          subst this
          exact (ih hne).mp hi
        · intro hrhs
          have := (ih hne).mpr hrhs
          refine ⟨cs.length - 1, this, ?_⟩
          have hpos : 1 ≤ cs.length := by
            rcases cs with _ | _
            · exact absurd rfl hne
            · simp
          omega

theorem keepKey_iff (head rest : Str) (h : rest ≠ []) :
    keepKey head rest = true ↔
      rest.count sep = 0 ∨ (rest.count sep = 1 ∧ rest.getLast? = some sep) := by
  rcases head with _ | ⟨hc, hs⟩
  · rcases hf : firstSep rest with _ | i
    · rw [keepKey_nil_head, hf]
      simp only [true_iff]
      exact Or.inl ((firstSep_eq_none_iff rest).mp hf)
    · rw [keepKey_nil_head, hf]
      constructor
      · intro hi
        have : i = rest.length - 1 := by simpa using hi
        subst this
        exact Or.inr ((firstSep_last_iff rest h).mp hf)
      · intro hd
        rcases hd with hz | ho
        · exfalso
          rw [← firstSep_eq_none_iff] at hz
          rw [hz] at hf
          exact Option.noConfusion hf
        · have := (firstSep_last_iff rest h).mpr ho
          rw [hf] at this
          have hi : i = rest.length - 1 := by simpa using this
          simp [hi]
  · rcases rest with _ | ⟨rc, rs⟩
    · simp at h
    · simp [keepKey]

theorem mapPanic_isSome_iff (f : α → Option β) (l : List α) :
    (mapPanic f l).isSome = true ↔ ∀ a ∈ l, (f a).isSome = true := by
  induction l with
  | nil => simp [mapPanic]
  | cons a as ih =>
    rcases hfa : f a with _ | b
    · simp [mapPanic, hfa]
    · simp [mapPanic, hfa, ih]

theorem channel_send_foldl (evts q : List ε) :
    List.foldl channel_send q evts = q ++ evts := by
  induction evts generalizing q with
  | nil => simp
  | cons e es ih =>
    rw [List.foldl_cons, ih]
    simp [channel_send]

/-! ## Claim theorems -/

/-- C1 (counterexample): on the spec's own example — prefix `"docs/"`,
keys `docs/a.txt`, `docs/readme.md`, `docs/sub/b.txt`, `docs/sub/c.txt` —
`list_objects` returns exactly TWO entries, both of kind `File`; no
`Directory "sub/"` entry is synthesized for the two deep keys, contrary to
the claimed three-entry result. -/
theorem c1_counterexample :
    (list_objects (fun _ => some 0) (some "docs/".toList)
      (some [⟨some "docs/a.txt".toList, some 1, some "t".toList, none, none⟩,
             ⟨some "docs/readme.md".toList, some 1, some "t".toList, none, none⟩,
             ⟨some "docs/sub/b.txt".toList, some 1, some "t".toList, none, none⟩,
             ⟨some "docs/sub/c.txt".toList, some 1, some "t".toList, none, none⟩])).map
        (List.map fun o => (o.name, o.kind))
    = some [("a.txt".toList, Kind.File), ("readme.md".toList, Kind.File)] := rfl

/-- C1 (amended): for the spec's example key set, `list_objects` returns
exactly the two File entries `a.txt` and `readme.md`; deep keys are
excluded without producing any Directory entry. The claimed three-entry
listing with `Directory "sub/"` arises exactly when the backend listing
also contains the directory-marker object `docs/sub/` itself, in which
case the two deep keys are represented by that single marker entry. -/
theorem c1_amended_thm :
    (list_objects (fun _ => some 0) (some "docs/".toList)
      (some [⟨some "docs/a.txt".toList, some 1, some "t".toList, none, none⟩,
             ⟨some "docs/readme.md".toList, some 1, some "t".toList, none, none⟩,
             ⟨some "docs/sub/b.txt".toList, some 1, some "t".toList, none, none⟩,
             ⟨some "docs/sub/c.txt".toList, some 1, some "t".toList, none, none⟩])
    = some [⟨"a.txt".toList, "docs/".toList, Kind.File, some 1, 0, none, none⟩,
            ⟨"readme.md".toList, "docs/".toList, Kind.File, some 1, 0, none, none⟩])
    ∧ (list_objects (fun _ => some 0) (some "docs/".toList)
      (some [⟨some "docs/a.txt".toList, some 1, some "t".toList, none, none⟩,
             ⟨some "docs/readme.md".toList, some 1, some "t".toList, none, none⟩,
             ⟨some "docs/sub/".toList, some 1, some "t".toList, none, none⟩,
             ⟨some "docs/sub/b.txt".toList, some 1, some "t".toList, none, none⟩,
             ⟨some "docs/sub/c.txt".toList, some 1, some "t".toList, none, none⟩])
    = some [⟨"a.txt".toList, "docs/".toList, Kind.File, some 1, 0, none, none⟩,
            ⟨"readme.md".toList, "docs/".toList, Kind.File, some 1, 0, none, none⟩,
            ⟨"sub/".toList, "docs/".toList, Kind.Directory, some 1, 0, none, none⟩]) :=
  ⟨rfl, rfl⟩

/-- C3 (code evaluated at the failing input): for every existing path whose
metadata succeeds and reports a directory, `get_files_list` returns
`Unsupported` — the guard at filesystem.rs line 70 is inverted — while the
non-directory branch is the one that attempts to list children. The claim
(and the source's own error string "Given path points to a non-directory
file") require the opposite. -/
theorem c3_directory_gets_unsupported :
    (∀ entries, get_files_list ⟨true, some true, some entries⟩
      = some (Except.error IOErrorKind.Unsupported))
    ∧ get_files_list
        ⟨true, some false,
         some [some ⟨some "a.txt".toList, some false, some "/d".toList⟩]⟩
      = some (Except.ok [⟨"a.txt".toList, some "/d".toList, Kind.File⟩]) :=
  ⟨fun _ => rfl, rfl⟩

/-- C4 (counterexample): a listing in which the second child's metadata
probe fails does not return that child with an `Unknown` kind — it panics
(`none`), aborting the whole listing, because the source unwraps the
per-child `fs::metadata` result. -/
theorem c4_counterexample :
    get_files_list
      ⟨true, some false,
       some [some ⟨some "a.txt".toList, some false, some "/d".toList⟩,
             some ⟨some "b.txt".toList, none, some "/d".toList⟩]⟩ = none := rfl

/-- C4 (amended): the `Kind` enum has only the `File` and `Directory`
variants (no `Unknown`); a listing whose children's metadata probes all
succeed classifies each child as `File` or `Directory` from its own
metadata, and a single child's metadata failure aborts the whole listing
with a panic instead of degrading that child's kind. -/
theorem c4_amended_thm :
    (∀ k : Kind, k = Kind.File ∨ k = Kind.Directory)
    ∧ get_files_list
        ⟨true, some false,
         some [some ⟨some "a.txt".toList, some false, some "/d".toList⟩,
               some ⟨some "sub".toList, some true, some "/d".toList⟩]⟩
      = some (Except.ok
          [⟨"a.txt".toList, some "/d".toList, Kind.File⟩,
           ⟨"sub/".toList, some "/d".toList, Kind.Directory⟩])
    ∧ get_files_list
        ⟨true, some false,
         some [some ⟨some "a.txt".toList, some false, some "/d".toList⟩,
               some ⟨some "b.txt".toList, none, some "/d".toList⟩]⟩ = none :=
  ⟨fun k => match k with
    | Kind.File => Or.inl rfl
    | Kind.Directory => Or.inr rfl,
   rfl, rfl⟩

/-- C5 (code evaluated at the failing input): with a two-chunk stream whose
first write attempt fails as `Interrupted`, the transfer reports success
but the first chunk is never written — the `continue` at filesystem.rs
line 123 advances to the NEXT stream item instead of retrying the same
chunk. A non-transient failure is propagated unchanged at once, and the
no-failure run writes every chunk in order. -/
theorem c5_interrupted_skips_chunk :
    write_file_from_stream true
        (fun n => if n == 0 then some IOErrorKind.Interrupted else none)
        [Except.ok (0 : Nat), Except.ok 1]
      = some (Except.ok (), [1])
    ∧ write_file_from_stream true (fun _ => some IOErrorKind.PermissionDenied)
        [Except.ok (0 : Nat), Except.ok 1]
      = some (Except.error IOErrorKind.PermissionDenied, [])
    ∧ write_file_from_stream true (fun _ => none)
        [Except.ok (0 : Nat), Except.ok 1]
      = some (Except.ok (), [0, 1]) :=
  ⟨rfl, rfl, rfl⟩

/-- C6: `remove_file` behaves exactly as the claim's delete contract
describes — NotFound for an absent path, Unsupported for an existing
directory with nothing removed, PermissionDenied when metadata access or
the removal call fails, and otherwise the single file is removed. -/
theorem c6_remove_file_matches_contract :
    ∀ st : RemoveState, remove_file st = remove_file_claim st := by
  rintro ⟨(_|_), (_|(_|_)), (_|_)⟩ <;> rfl

/-- C7 (code evaluated at the failing input): `get_file_byte_stream` fails
with `InvalidInput` for EVERY file — including an existing readable one —
because the open options set no access mode (`read`, `write`, `append`
all unset), which `std::fs::OpenOptions::open` documents as an
`InvalidInput` error. The `FileBytesStream` size hint itself does equal
the recorded file length. -/
theorem c7_open_always_invalid_input :
    (∀ f : FileState, get_file_byte_stream f = Except.error IOErrorKind.InvalidInput)
    ∧ (∀ s : FileBytesStream, size_hint s = (s.size, some s.size)) :=
  ⟨fun _ => rfl, fun _ => rfl⟩

/-- C8: the exit key is classified as `Shutdown` and every other key as
`Input`; the channel delivers the generated sequence
`Input, Tick, Input, Shutdown` in exactly that order (sending in
generation order yields the same queue); and running the application loop
on it handles the two inputs in order, performs teardown on `Shutdown`,
and leaves any later events unprocessed. -/
theorem c8_event_ordering :
    ∀ (x y : KeyCode) (extra : List (Event KeyCode)),
      x ≠ KeyCode.Esc → y ≠ KeyCode.Esc →
      classify_key KeyCode.Esc = Event.Shutdown
      ∧ classify_key x = Event.Input x
      ∧ classify_key y = Event.Input y
      ∧ List.foldl channel_send []
          ([Event.Input x, Event.Tick, Event.Input y, Event.Shutdown] ++ extra)
        = [Event.Input x, Event.Tick, Event.Input y, Event.Shutdown] ++ extra
      ∧ run_loop ([Event.Input x, Event.Tick, Event.Input y, Event.Shutdown] ++ extra)
        = some { handled := [x, y], teardownRan := true, unprocessed := extra } := by
  intro x y extra hx hy
  refine ⟨rfl, ?_, ?_, ?_, ?_⟩
  · simp [classify_key, hx]
  · simp [classify_key, hy]
  · rw [channel_send_foldl]
    simp
  · simp [run_loop]

/-- C8 witness: the theorem instantiated at the keys 'a' and 'b' with one
trailing event after `Shutdown`. -/
theorem c8_witness :
    KeyCode.Chr 'a' ≠ KeyCode.Esc ∧ KeyCode.Chr 'b' ≠ KeyCode.Esc ∧
      (classify_key KeyCode.Esc = Event.Shutdown
      ∧ classify_key (KeyCode.Chr 'a') = Event.Input (KeyCode.Chr 'a')
      ∧ classify_key (KeyCode.Chr 'b') = Event.Input (KeyCode.Chr 'b')
      ∧ List.foldl channel_send []
          ([Event.Input (KeyCode.Chr 'a'), Event.Tick,
            Event.Input (KeyCode.Chr 'b'), Event.Shutdown] ++ [Event.Tick])
        = [Event.Input (KeyCode.Chr 'a'), Event.Tick,
           Event.Input (KeyCode.Chr 'b'), Event.Shutdown] ++ [Event.Tick]
      ∧ run_loop ([Event.Input (KeyCode.Chr 'a'), Event.Tick,
            Event.Input (KeyCode.Chr 'b'), Event.Shutdown] ++ [Event.Tick])
        = some { handled := [KeyCode.Chr 'a', KeyCode.Chr 'b'],
                 teardownRan := true, unprocessed := [Event.Tick] }) :=
  ⟨by decide, by decide,
   c8_event_ordering (KeyCode.Chr 'a') (KeyCode.Chr 'b') [Event.Tick]
     (by decide) (by decide)⟩

/-- C9 (counterexample): a `Shutdown` send to a terminated receiver is not
silently best-effort — the producer panics, because the source wraps the
send in `.expect("Can send events")`. -/
theorem c9_counterexample :
    sender_dispatch false (Event.Shutdown : Event KeyCode) = none := rfl

/-- C9 (amended): only `Tick` sends are silently best-effort on a closed
receiver; `Input` and `Shutdown` sends panic there, and with a live
receiver every send succeeds. -/
theorem c9_amended_thm :
    sender_dispatch false (Event.Tick : Event KeyCode) = some ()
    ∧ (∀ k : KeyCode, sender_dispatch false (Event.Input k) = none)
    ∧ sender_dispatch false (Event.Shutdown : Event KeyCode) = none
    ∧ (∀ e : Event KeyCode, sender_dispatch true e = some ()) :=
  ⟨rfl, fun _ => rfl, rfl, fun e => by cases e <;> rfl⟩

/-- C10 (counterexample): the response contains a deep-descendant key
`docs/sub/b.txt` with an ABSENT last-modified timestamp — outside the
claimed precondition — yet `list_objects` does not abort: the key is
excluded by the filter before its timestamp is ever unwrapped, and the
listing returns normally. -/
theorem c10_counterexample :
    list_objects (fun _ => some 0) (some "docs/".toList)
      (some [⟨some "docs/a.txt".toList, some 1, some "t".toList, none, none⟩,
             ⟨some "docs/sub/b.txt".toList, none, none, none, none⟩])
    = some [⟨"a.txt".toList, "docs/".toList, Kind.File, some 1, 0, none, none⟩] := rfl


theorem processObj_some_key (parse : Str → Option Int) (pfx key : Str)
    (sz : Option Int) (lm? : Option Str) (sc : Option Str) (ow : Option (Option Str))
    (hle : pfx.length ≤ key.length) :
    processObj parse pfx ⟨some key, sz, lm?, sc, ow⟩ =
      if keepKey (key.take pfx.length) (key.drop pfx.length) then
        match mkObject parse (key.take pfx.length) (key.drop pfx.length)
            ⟨some key, sz, lm?, sc, ow⟩ with
        | none => none
        | some obj => some (some obj)
      else some none := by
  simp [processObj, splitAtP, hle]

theorem processObj_short_key (parse : Str → Option Int) (pfx key : Str)
    (sz : Option Int) (lm? : Option Str) (sc : Option Str) (ow : Option (Option Str))
    (hlt : ¬ pfx.length ≤ key.length) :
    processObj parse pfx ⟨some key, sz, lm?, sc, ow⟩ = none := by
  simp [processObj, splitAtP, hlt]

theorem mkObject_isSome_iff (parse : Str → Option Int) (head rest : Str) (o : ObjIn) :
    (mkObject parse head rest o).isSome = true ↔
      rest ≠ [] ∧ ∃ lm : Str, o.last_modified = some lm ∧ (parse lm).isSome = true := by
  rcases rest with _ | ⟨r, rs⟩
  · simp [mkObject]
  · obtain ⟨c, hgl⟩ : ∃ c, (r :: rs).getLast? = some c := Option.isSome_iff_exists.mp rfl
    rcases hlm : o.last_modified with _ | lm
    · simp [mkObject, hgl, hlm]
    · rcases hp : parse lm with _ | t
      · simp [mkObject, hgl, hlm, hp]
      · simp [mkObject, hgl, hlm, hp]

theorem processObj_isSome_iff (parse : Str → Option Int) (pfx : Str) (o : ObjIn) :
    (processObj parse pfx o).isSome = true ↔
      ∃ key : Str, o.key = some key ∧ pfx.length ≤ key.length ∧
        (keepKey (key.take pfx.length) (key.drop pfx.length) = true →
          key.drop pfx.length ≠ [] ∧
          ∃ lm : Str, o.last_modified = some lm ∧ (parse lm).isSome = true) := by
  rcases o with ⟨key?, sz, lm?, sc, ow⟩
  rcases key? with _ | key
  · simp [processObj]
  · simp only [Option.some.injEq]
    by_cases hle : pfx.length ≤ key.length
    · rw [processObj_some_key parse pfx key sz lm? sc ow hle]
      by_cases hkeep : keepKey (key.take pfx.length) (key.drop pfx.length) = true
      · rw [if_pos hkeep]
        rcases hmk : mkObject parse (key.take pfx.length) (key.drop pfx.length)
            ⟨some key, sz, lm?, sc, ow⟩ with _ | obj
        · have hmk2 := mkObject_isSome_iff parse (key.take pfx.length)
            (key.drop pfx.length) ⟨some key, sz, lm?, sc, ow⟩
          rw [hmk] at hmk2
          simp only [Option.isSome_none, Bool.false_eq_true, false_iff] at hmk2
          constructor
          · intro h
            simp at h
          · intro h
            exfalso
            rcases h with ⟨key3, hk3, hle3, himp⟩
            rcases hk3 with rfl
            exact hmk2 (himp hkeep)
        · have hmk2 := mkObject_isSome_iff parse (key.take pfx.length)
            (key.drop pfx.length) ⟨some key, sz, lm?, sc, ow⟩
          rw [hmk] at hmk2
          simp only [Option.isSome_some, true_iff] at hmk2
          constructor
          · intro _
            exact ⟨key, rfl, hle, fun _ => hmk2⟩
          · intro _
            rfl
      · rw [if_neg hkeep]
        constructor
        · intro _
          exact ⟨key, rfl, hle, fun hk => absurd hk hkeep⟩
        · intro _
          rfl
    · rw [processObj_short_key parse pfx key sz lm? sc ow hle]
      constructor
      · intro h
        simp at h
      · rintro ⟨key3, hk3, hle3, -⟩
        rcases hk3 with rfl
        exact absurd hle3 hle

theorem mkObject_value (parse : Str → Option Int) (head : Str) (r : Char) (rs : Str)
    (c : Char) (hgl : (r :: rs).getLast? = some c) (k? : Option Str) (sz : Option Int)
    (sc : Option Str) (ow : Option (Option Str)) (lm : Str) (t : Int)
    (hp : parse lm = some t) :
    mkObject parse head (r :: rs) ⟨k?, sz, some lm, sc, ow⟩
      = some ⟨r :: rs, head, if c = sep then Kind.Directory else Kind.File,
              sz, t, sc, ow.getD none⟩ := by
  simp only [mkObject, hgl, hp]
  cases ow <;> rfl

/-- C2: per-key classification of `list_objects`, for every prefix (empty
or not) and every key starting with it. With `rest` the key minus its
first `len(prefix)` characters: the key is retained and emitted as a
`File` entry named `rest` exactly when `rest` is non-empty with zero
separators; it is retained and emitted as a `Directory` entry named
`rest` (trailing separator included) exactly when `rest` has exactly one
separator which is its final character; and a key with empty `rest` is
never emitted. -/
theorem c2_per_key_classification :
    ∀ (parse : Str → Option Int) (pfx key : Str) (sz : Option Int)
      (sc : Option Str) (ow : Option (Option Str)) (lm : Str) (t : Int),
      parse lm = some t →
      key.take pfx.length = pfx →
      ((processObj parse pfx ⟨some key, sz, some lm, sc, ow⟩
          = some (some ⟨key.drop pfx.length, pfx, Kind.File, sz, t, sc, ow.getD none⟩))
        ↔ (key.drop pfx.length ≠ [] ∧ (key.drop pfx.length).count sep = 0))
      ∧ ((processObj parse pfx ⟨some key, sz, some lm, sc, ow⟩
          = some (some ⟨key.drop pfx.length, pfx, Kind.Directory, sz, t, sc, ow.getD none⟩))
        ↔ ((key.drop pfx.length).count sep = 1 ∧ (key.drop pfx.length).getLast? = some sep))
      ∧ (key.drop pfx.length = [] →
          ∀ obj : S3Object,
            processObj parse pfx ⟨some key, sz, some lm, sc, ow⟩ ≠ some (some obj)) := by
  intro parse pfx key sz sc ow lm t hp hk
  have hle : pfx.length ≤ key.length := by
    have h2 := congrArg List.length hk
    simp [List.length_take] at h2
    omega
  rw [processObj_some_key parse pfx key sz (some lm) sc ow hle, hk]
  generalize key.drop pfx.length = rest
  rcases rest with _ | ⟨r, rs⟩
  · rcases pfx with _ | ⟨p, ps⟩
    · have hkk : keepKey [] [] = true := rfl
      rw [if_pos hkk]
      have hmk : mkObject parse [] [] ⟨some key, sz, some lm, sc, ow⟩ = none := rfl
      rw [hmk]
      refine ⟨by simp, by simp, ?_⟩
      intro _ obj
      simp
    · have hkk : keepKey (p :: ps) [] = false := rfl
      rw [hkk]
      simp only [Bool.false_eq_true, if_false]
      refine ⟨by simp, by simp, ?_⟩
      intro _ obj
      simp
  · have hne : r :: rs ≠ [] := by simp
    obtain ⟨c, hgl⟩ : ∃ c, (r :: rs).getLast? = some c := Option.isSome_iff_exists.mp rfl
    have hkeepiff := keepKey_iff pfx (r :: rs) hne
    by_cases hkeep : keepKey pfx (r :: rs) = true
    · rw [if_pos hkeep,
        mkObject_value parse pfx r rs c hgl (some key) sz sc ow lm t hp]
      by_cases hc : c = sep
      · rw [if_pos hc]
        have hmem : (r :: rs).count sep ≠ 0 := by
          intro hz
          exact count_zero_getLast_ne _ hz (hc ▸ hgl)
        have hcd : (r :: rs).count sep = 1 ∧ (r :: rs).getLast? = some sep := by
          rcases hkeepiff.mp hkeep with hz | ho
          · exact absurd hz hmem
          · exact ho
        refine ⟨?_, ?_, ?_⟩
        · simp only [Option.some.injEq, S3Object.mk.injEq]
          constructor
          · rintro ⟨-, -, hkind, -⟩
            exact absurd hkind.symm (by simp)
          · rintro ⟨-, hcnt⟩
            exact absurd hcnt hmem
        · simp only [Option.some.injEq, S3Object.mk.injEq]
          simp [hcd]
        · intro habs
          exact absurd habs hne
      · rw [if_neg hc]
        have hlastne : (r :: rs).getLast? ≠ some sep := by
          rw [hgl]
          simp [hc]
        have hcz : (r :: rs).count sep = 0 := by
          rcases hkeepiff.mp hkeep with hz | ho
          · exact hz
          · exact absurd ho.2 hlastne
        refine ⟨?_, ?_, ?_⟩
        · simp only [Option.some.injEq, S3Object.mk.injEq]
          simp [hne, hcz]
        · simp only [Option.some.injEq, S3Object.mk.injEq]
          constructor
          · rintro ⟨-, -, hkind, -⟩
            exact absurd hkind (by simp)
          · rintro ⟨-, hlast⟩
            exact absurd hlast hlastne
        · intro habs
          exact absurd habs hne
    · rw [if_neg hkeep]
      refine ⟨?_, ?_, ?_⟩
      · constructor
        · intro h
          exact absurd (Option.some.injEq .. ▸ h) (by simp)
        · rintro ⟨-, hcnt⟩
          exact absurd (hkeepiff.mpr (Or.inl hcnt)) hkeep
      · constructor
        · intro h
          exact absurd (Option.some.injEq .. ▸ h) (by simp)
        · intro hcd
          exact absurd (hkeepiff.mpr (Or.inr hcd)) hkeep
      · intro habs
        exact absurd habs hne

/-- C2 witness: the classification instantiated at prefix `docs/` and key
`docs/a.txt` with a concrete parser. -/
theorem c2_witness :
    ((fun (_ : Str) => some (0 : Int)) "t".toList = some 0)
    ∧ ("docs/a.txt".toList.take "docs/".toList.length = "docs/".toList)
    ∧ ((processObj (fun _ => some 0) "docs/".toList
          ⟨some "docs/a.txt".toList, some 1, some "t".toList, none, none⟩
        = some (some ⟨"docs/a.txt".toList.drop "docs/".toList.length,
                      "docs/".toList, Kind.File, some 1, 0, none,
                      (none : Option (Option Str)).getD none⟩))
      ↔ ("docs/a.txt".toList.drop "docs/".toList.length ≠ []
          ∧ ("docs/a.txt".toList.drop "docs/".toList.length).count sep = 0)) :=
  ⟨rfl, by decide,
   (c2_per_key_classification (fun _ => some 0) "docs/".toList "docs/a.txt".toList
     (some 1) none none "t".toList 0 rfl (by decide)).1⟩

/-- C10 (amended): `list_objects` never panics exactly when every object
of the response has a present key at least as long as the prefix, and
every key RETAINED by the filter additionally has a non-empty remainder
and a present, parsable last-modified timestamp. Keys the filter excludes
never have their timestamps examined (so a missing or malformed timestamp
there does not abort), and no prefix-match condition is needed. -/
theorem c10_amended_thm :
    ∀ (parse : Str → Option Int) (pfx : Str) (objs : List ObjIn),
      (list_objects parse (some pfx) (some objs)).isSome = true ↔
        ∀ o ∈ objs, ∃ key : Str, o.key = some key ∧ pfx.length ≤ key.length ∧
          (keepKey (key.take pfx.length) (key.drop pfx.length) = true →
            key.drop pfx.length ≠ [] ∧
            ∃ lm : Str, o.last_modified = some lm ∧ (parse lm).isSome = true) := by
  intro parse pfx objs
  show ((mapPanic (processObj parse pfx) objs).map (List.filterMap id)).isSome = true ↔ _
  rw [Option.isSome_map']
  rw [mapPanic_isSome_iff]
  constructor
  · intro h o ho
    exact (processObj_isSome_iff parse pfx o).mp (h o ho)
  · intro h o ho
    exact (processObj_isSome_iff parse pfx o).mpr (h o ho)

end S3tui
